import Mathlib

/-!
Verification of the `fast_particle_collision_time` repository.

The embedding is over the real numbers: every Python function of the
computational core (`constants.py`, `relaxation_times.py`, `dt_fusion.py`)
is translated to a real-valued Lean function with the same name and the
same argument order.  The external special-function collaborator
(`scipy.special.erf`) is modelled by the mathematical error function,
defined through the Gaussian integral; `np.sqrt`, `np.exp` and `np.pi`
are modelled by `Real.sqrt`, `Real.exp` and `Real.pi`.
-/

namespace FPCT

noncomputable section

/-! ### constants.py -/

/-- `ELECTRON_CHARGE` from `constants.py` (Coulombs). -/
def ELECTRON_CHARGE : ℝ := 1.60217662e-19

/-- `COULOMB_LOG` from `constants.py` (dimensionless). -/
def COULOMB_LOG : ℝ := 17

/-- `PERMITTIVITY_OF_FREE_SPACE` from `constants.py` (F/m). -/
def PERMITTIVITY_OF_FREE_SPACE : ℝ := 8.8541878128e-12

/-- `ELECTRON_MASS` from `constants.py` (kg). -/
def ELECTRON_MASS : ℝ := 9.10938356e-31

/-- `PROTON_MASS` from `constants.py` (kg). -/
def PROTON_MASS : ℝ := 1.672621777e-27

/-- `ALPHA_ION_MASS` from `constants.py` (kg). -/
def ALPHA_ION_MASS : ℝ := 6.644656e-27

/-! ### relaxation_times.py -/

/-- `_a_d` from `relaxation_times.py`: the A_D friction coefficient. -/
def _a_d (background_density test_charge_state background_charge_state
    test_mass : ℝ) : ℝ :=
  background_density * ELECTRON_CHARGE ^ 4 * test_charge_state ^ 2
    * background_charge_state ^ 2 * COULOMB_LOG /
    (2 * Real.pi * PERMITTIVITY_OF_FREE_SPACE ^ 2 * test_mass ^ 2)

/-- Modelled from the spec: the special-function collaborator
`scipy.special.erf` (external to the repository), i.e. the error function
erf x = (2/√π) ∫ t in 0..x, exp (-t²). -/
def erf (x : ℝ) : ℝ :=
  (2 / Real.sqrt Real.pi) * ∫ t in (0:ℝ)..x, Real.exp (-t ^ 2)

/-- `_phi` from `relaxation_times.py` (delegates to the error function). -/
def _phi (x : ℝ) : ℝ := erf x

/-- `_phi_prime` from `relaxation_times.py`: analytic derivative of Φ. -/
def _phi_prime (x : ℝ) : ℝ := 2 * Real.exp (-x ^ 2) / Real.sqrt Real.pi

/-- `_psi` from `relaxation_times.py`. -/
def _psi (x : ℝ) : ℝ := (_phi x - x * _phi_prime x) / (2 * x ^ 2)

/-- `slowing_down_time` from `relaxation_times.py` (Wesson Eq. 2.14.1). -/
def slowing_down_time (test_speed background_thermal_speed test_mass
    background_mass background_density test_charge_state
    background_charge_state : ℝ) : ℝ :=
  2 * background_thermal_speed ^ 2 * test_speed /
    ((1 + test_mass / background_mass) *
      _a_d background_density test_charge_state background_charge_state
        test_mass *
      _psi (test_speed / (Real.sqrt 2 * background_thermal_speed)))

/-- `deflection_time` from `relaxation_times.py` (Wesson Eq. 2.14.2).
Note that, as in the source, `background_mass` is not a parameter. -/
def deflection_time (test_speed background_thermal_speed test_mass
    background_density test_charge_state background_charge_state : ℝ) : ℝ :=
  test_speed ^ 3 /
    (_a_d background_density test_charge_state background_charge_state
        test_mass *
      (_phi (test_speed / (Real.sqrt 2 * background_thermal_speed)) -
        _psi (test_speed / (Real.sqrt 2 * background_thermal_speed))))

/-! ### dt_fusion.py -/

/-- `gamov_constant` from `dt_fusion.py` (√keV). -/
def gamov_constant : ℝ := 34.382

/-- `mrc2` from `dt_fusion.py` (keV). -/
def mrc2 : ℝ := 1124656

/-- `const_1` from `dt_fusion.py`. -/
def const_1 : ℝ := 1.17302e-9

/-- `const_2` from `dt_fusion.py`. -/
def const_2 : ℝ := 1.51361e-2

/-- `const_3` from `dt_fusion.py`. -/
def const_3 : ℝ := 7.51886e-2

/-- `const_4` from `dt_fusion.py`. -/
def const_4 : ℝ := 4.60643e-3

/-- `const_5` from `dt_fusion.py`. -/
def const_5 : ℝ := 1.35000e-2

/-- `const_6` from `dt_fusion.py`. -/
def const_6 : ℝ := -1.06750e-4

/-- `const_7` from `dt_fusion.py`. -/
def const_7 : ℝ := 1.36600e-5

/-- The polynomial `temp_ions * (const_2 + temp_ions * (const_4 +
temp_ions * const_6))` whose negation initialises `denominator` in
`reactivity` of `dt_fusion.py`. -/
def Pp (t : ℝ) : ℝ := t * (const_2 + t * (const_4 + t * const_6))

/-- The polynomial `1 + temp_ions * (const_3 + temp_ions * (const_5 +
temp_ions * const_7))` dividing `denominator` in `reactivity`. -/
def Qq (t : ℝ) : ℝ := 1 + t * (const_3 + t * (const_5 + t * const_7))

/-- The final value of the local variable `denominator` in `reactivity`
of `dt_fusion.py`: `-Pp/Qq` then `+ 1`. -/
def Dd (t : ℝ) : ℝ := -Pp t / Qq t + 1

/-- `theta` as computed in `reactivity` of `dt_fusion.py`. -/
def theta (t : ℝ) : ℝ := t / Dd t

/-- `xi_greek` as computed in `reactivity` of `dt_fusion.py`:
`(0.25 * gamov_constant**2 / theta) ** (1/3)`. -/
def xi_greek (t : ℝ) : ℝ :=
  (0.25 * gamov_constant ^ 2 / theta t) ^ ((1 : ℝ) / 3)

/-- `reactivity` from `dt_fusion.py`: the Bosch-Hale DT reactivity. -/
def reactivity (temp_ions : ℝ) : ℝ :=
  const_1 * theta temp_ions *
    Real.sqrt (xi_greek temp_ions / (mrc2 * temp_ions ^ 3)) *
    Real.exp (-(3 * xi_greek temp_ions))

/-! ### Spec-side definitions

These re-state, word for word, the formulas of the claims, to be
compared with the source-side definitions above. -/

/-- Spec formula for θ: `T / (1 - T*(c2 + T*(c4 + T*c6)) /
(1 + T*(c3 + T*(c5 + T*c7))))`. -/
def theta_spec (t : ℝ) : ℝ :=
  t / (1 - t * (const_2 + t * (const_4 + t * const_6)) /
    (1 + t * (const_3 + t * (const_5 + t * const_7))))

/-- Spec formula for the Gamow parameter: `ξ = (G²/(4θ))^(1/3)`. -/
def xi_spec (t : ℝ) : ℝ :=
  (gamov_constant ^ 2 / (4 * theta_spec t)) ^ ((1 : ℝ) / 3)

/-- Spec formula for the reactivity:
`C₁ · θ · √(ξ / (M·T³)) · exp(−3ξ)`. -/
def reactivity_spec (t : ℝ) : ℝ :=
  const_1 * theta_spec t * Real.sqrt (xi_spec t / (mrc2 * t ^ 3)) *
    Real.exp (-(3 * xi_spec t))

/-- Spec formula for the friction coefficient of §4.2:
`A_D = n · e⁴ · Z_test² · Z_bg² · lnΛ / (2π · ε₀² · m_test²)`. -/
def A_D_spec (n zt zb m : ℝ) : ℝ :=
  n * ELECTRON_CHARGE ^ 4 * zt ^ 2 * zb ^ 2 * COULOMB_LOG /
    (2 * Real.pi * PERMITTIVITY_OF_FREE_SPACE ^ 2 * m ^ 2)

/-- Spec formula for Ψ: `(Φ(x) − x·Φ′(x)) / (2x²)` with the closed form
`Φ′(x) = (2/√π)·exp(−x²)`. -/
def Psi_spec (x : ℝ) : ℝ :=
  (erf x - x * (2 / Real.sqrt Real.pi * Real.exp (-x ^ 2))) / (2 * x ^ 2)

/-- Spec formula for the slowing-down time:
`τ_s = 2·vth²·v / [(1 + m/m_b) · A_D · Ψ(x)]`, `x = v/(√2·vth)`. -/
def slowing_down_time_spec (v vth m mb n zt zb : ℝ) : ℝ :=
  2 * vth ^ 2 * v /
    ((1 + m / mb) * A_D_spec n zt zb m * Psi_spec (v / (Real.sqrt 2 * vth)))

/-- Spec formula for the deflection time:
`τ_d = v³ / [A_D · (Φ(x) − Ψ(x))]`, `x = v/(√2·vth)`. -/
def deflection_time_spec (v vth m n zt zb : ℝ) : ℝ :=
  v ^ 3 /
    (A_D_spec n zt zb m *
      (erf (v / (Real.sqrt 2 * vth)) - Psi_spec (v / (Real.sqrt 2 * vth))))

end

/-! ### Claim C1 -/

lemma theta_eq_spec (t : ℝ) : theta t = theta_spec t := by
  unfold theta theta_spec Dd Pp Qq
  ring_nf

lemma xi_eq_spec (t : ℝ) : xi_greek t = xi_spec t := by
  unfold xi_greek xi_spec
  rw [theta_eq_spec]
  norm_num
  ring_nf

/-- C1: for every positive ion temperature `T`, `reactivity T` equals the
Bosch-Hale formula `C₁·θ·√(ξ/(M·T³))·exp(−3ξ)` with θ the rational
(Padé) correction of `T` and `ξ = (G²/(4θ))^(1/3)`, at the fixed
constants of the source. -/
theorem C1_reactivity_formula (t : ℝ) (ht : 0 < t) :
    reactivity t = reactivity_spec t := by
  unfold reactivity reactivity_spec
  rw [theta_eq_spec, xi_eq_spec]

/-- Witness for C1 at `T = 1`. -/
theorem C1_reactivity_formula_witness :
    (0 : ℝ) < 1 ∧ reactivity 1 = reactivity_spec 1 :=
  ⟨by norm_num, C1_reactivity_formula 1 (by norm_num)⟩

/-! ### Claims C2, C3, C4 -/

/-- C2: for positive speeds (and positive masses and density),
`slowing_down_time` returns `2·vth²·v / ((1 + m/m_b)·A_D·Ψ(x))` with
`x = v/(√2·vth)`, `Ψ(x) = (Φ(x) − x·Φ′(x))/(2x²)`, `Φ = erf`, and
`Φ′(x)` given by the closed form `(2/√π)·exp(−x²)`. -/
theorem C2_slowing_down_time_formula (v vth m mb n zt zb : ℝ)
    (hvth : 0 < vth) (hv : 0 < v) (hm : 0 < m) (hmb : 0 < mb)
    (hn : 0 < n) :
    slowing_down_time v vth m mb n zt zb =
      slowing_down_time_spec v vth m mb n zt zb := by
  unfold slowing_down_time slowing_down_time_spec _psi _phi _phi_prime
    _a_d A_D_spec Psi_spec
  ring_nf

/-- Witness for C2 at all-ones arguments. -/
theorem C2_slowing_down_time_formula_witness :
    ((0 : ℝ) < 1) ∧
      slowing_down_time 1 1 1 1 1 1 1 =
        slowing_down_time_spec 1 1 1 1 1 1 1 :=
  ⟨by norm_num,
    C2_slowing_down_time_formula 1 1 1 1 1 1 1 (by norm_num) (by norm_num)
      (by norm_num) (by norm_num) (by norm_num)⟩

/-- C3: for positive speeds, `deflection_time` returns
`v³ / (A_D·(Φ(x) − Ψ(x)))` with `x = v/(√2·vth)` and the same
`test_mass`-dependent friction coefficient as `slowing_down_time`;
`background_mass` is not a parameter of the operation (visible in the
arity of `deflection_time`), so the result involves no
background-mass quantity. -/
theorem C3_deflection_time_formula (v vth m n zt zb : ℝ)
    (hvth : 0 < vth) (hv : 0 < v) :
    deflection_time v vth m n zt zb = deflection_time_spec v vth m n zt zb := by
  unfold deflection_time deflection_time_spec _psi _phi _phi_prime
    _a_d A_D_spec Psi_spec
  ring_nf

/-- Witness for C3 at all-ones arguments. -/
theorem C3_deflection_time_formula_witness :
    ((0 : ℝ) < 1) ∧
      deflection_time 1 1 1 1 1 1 = deflection_time_spec 1 1 1 1 1 1 :=
  ⟨by norm_num,
    C3_deflection_time_formula 1 1 1 1 1 1 (by norm_num) (by norm_num)⟩

/-- C4: for all inputs, `_a_d` returns
`n·e⁴·Z_test²·Z_bg²·lnΛ / (2π·ε₀²·m_test²)` where `e`, `ε₀` and `lnΛ`
are the fixed constants `ELECTRON_CHARGE`, `PERMITTIVITY_OF_FREE_SPACE`
and `COULOMB_LOG` of `constants.py`; as a total function on ℝ it is
pure and deterministic, with no error condition. -/
theorem C4_a_d_formula :
    (∀ n zt zb m : ℝ,
        _a_d n zt zb m =
          n * ELECTRON_CHARGE ^ 4 * zt ^ 2 * zb ^ 2 * COULOMB_LOG /
            (2 * Real.pi * PERMITTIVITY_OF_FREE_SPACE ^ 2 * m ^ 2)) ∧
      ELECTRON_CHARGE = 1.60217662e-19 ∧
      PERMITTIVITY_OF_FREE_SPACE = 8.8541878128e-12 ∧
      COULOMB_LOG = 17 :=
  ⟨fun n zt zb m => rfl, rfl, rfl, rfl⟩

/-! ### Claim C10 -/

lemma ratio_scale (l v vth : ℝ) (hl : l ≠ 0) (hvth : vth ≠ 0) :
    l * v / (Real.sqrt 2 * (l * vth)) = v / (Real.sqrt 2 * vth) := by
  have h2 : Real.sqrt 2 ≠ 0 := by positivity
  field_simp
  ring

/-- C10: scaling homogeneity.  For `λ > 0` and positive speeds, scaling
both `test_speed` and `background_thermal_speed` by `λ` multiplies
`slowing_down_time` and `deflection_time` by `λ³` (the dimensionless
ratio `x`, hence `Φ(x)` and `Ψ(x)`, is unchanged). -/
theorem C10_scaling_homogeneity (l v vth m mb n zt zb : ℝ)
    (hl : 0 < l) (hv : 0 < v) (hvth : 0 < vth) :
    slowing_down_time (l * v) (l * vth) m mb n zt zb =
        l ^ 3 * slowing_down_time v vth m mb n zt zb ∧
      deflection_time (l * v) (l * vth) m n zt zb =
        l ^ 3 * deflection_time v vth m n zt zb := by
  have hx := ratio_scale l v vth hl.ne' hvth.ne'
  constructor
  · unfold slowing_down_time
    rw [hx]; ring
  · unfold deflection_time
    rw [hx]; ring

/-- Witness for C10 at `λ = 2` and all-ones remaining arguments. -/
theorem C10_scaling_homogeneity_witness :
    ((0 : ℝ) < 2) ∧
      (slowing_down_time (2 * 1) (2 * 1) 1 1 1 1 1 =
          2 ^ 3 * slowing_down_time 1 1 1 1 1 1 1 ∧
        deflection_time (2 * 1) (2 * 1) 1 1 1 1 =
          2 ^ 3 * deflection_time 1 1 1 1 1 1) :=
  ⟨by norm_num,
    C10_scaling_homogeneity 2 1 1 1 1 1 1 1 (by norm_num) (by norm_num)
      (by norm_num)⟩

/-! ### Error-function estimates (for C6, C7)

The incomplete Gaussian integral `I x = ∫ t in 0..x, exp (-t²)` is
squeezed between `x·exp(-x²)` and `x` for `x > 0`; from these the
positivity of Ψ and of Φ − Ψ follow. -/

lemma continuous_gauss : Continuous fun t : ℝ => Real.exp (-t ^ 2) :=
  Real.continuous_exp.comp (continuous_pow 2).neg

lemma gauss_integral_gt (x : ℝ) (hx : 0 < x) :
    x * Real.exp (-x ^ 2) < ∫ t in (0:ℝ)..x, Real.exp (-t ^ 2) := by
  have h := intervalIntegral.integral_lt_integral_of_continuousOn_of_le_of_exists_lt
    (f := fun _ : ℝ => Real.exp (-x ^ 2)) (g := fun t : ℝ => Real.exp (-t ^ 2))
    hx continuousOn_const continuous_gauss.continuousOn
    (fun t ht => by
      have h1 : t ^ 2 ≤ x ^ 2 := by nlinarith [ht.1, ht.2]
      exact Real.exp_le_exp.2 (by linarith))
    ⟨0, ⟨le_refl 0, hx.le⟩, by
      have : -x ^ 2 < -(0:ℝ) ^ 2 := by nlinarith
      exact Real.exp_lt_exp.2 this⟩
  simpa [intervalIntegral.integral_const, smul_eq_mul] using h

lemma gauss_integral_lt (x : ℝ) (hx : 0 < x) :
    (∫ t in (0:ℝ)..x, Real.exp (-t ^ 2)) < x := by
  have h := intervalIntegral.integral_lt_integral_of_continuousOn_of_le_of_exists_lt
    (f := fun t : ℝ => Real.exp (-t ^ 2)) (g := fun _ : ℝ => (1:ℝ))
    hx continuous_gauss.continuousOn continuousOn_const
    (fun t ht => by
      have h1 : -t ^ 2 ≤ 0 := by nlinarith [ht.1]
      simpa using Real.exp_le_one_iff.2 h1)
    ⟨x, ⟨hx.le, le_refl x⟩, by
      have : Real.exp (-x ^ 2) < 1 := by
        apply Real.exp_lt_one_iff.2; nlinarith
      simpa using this⟩
  simpa [intervalIntegral.integral_const, smul_eq_mul] using h

lemma gauss_integral_pos (x : ℝ) (hx : 0 < x) :
    0 < ∫ t in (0:ℝ)..x, Real.exp (-t ^ 2) :=
  lt_trans (by positivity) (gauss_integral_gt x hx)

lemma sqrt_pi_pos : 0 < Real.sqrt Real.pi := Real.sqrt_pos.2 Real.pi_pos

lemma psi_pos (x : ℝ) (hx : 0 < x) : 0 < _psi x := by
  unfold _psi _phi _phi_prime erf
  have h1 := gauss_integral_gt x hx
  have h2 := sqrt_pi_pos
  apply div_pos _ (by positivity)
  have : x * (2 * Real.exp (-x ^ 2) / Real.sqrt Real.pi) =
      2 / Real.sqrt Real.pi * (x * Real.exp (-x ^ 2)) := by ring
  rw [this]
  rw [← mul_sub]
  apply mul_pos (by positivity)
  linarith

lemma phi_sub_psi_pos (x : ℝ) (hx : 0 < x) : 0 < _phi x - _psi x := by
  unfold _psi _phi _phi_prime erf
  set I := ∫ t in (0:ℝ)..x, Real.exp (-t ^ 2) with hI
  set E := Real.exp (-x ^ 2) with hE
  have hIgt : x * E < I := gauss_integral_gt x hx
  have hIlt : I < x := gauss_integral_lt x hx
  have hEx : 1 - x ^ 2 ≤ E := by
    have := Real.add_one_le_exp (-x ^ 2)
    linarith
  have hsp := sqrt_pi_pos
  rw [sub_pos, div_lt_iff₀ (by positivity)]
  have key : 0 < (2 * x ^ 2 - 1) * I + x * E := by
    rcases le_or_lt 1 (2 * x ^ 2) with h | h
    · have hIpos : 0 < I := lt_trans (by positivity) hIgt
      nlinarith [mul_pos hx (Real.exp_pos (-x ^ 2))]
    · nlinarith [mul_pos (mul_pos hx hx) hx,
        mul_pos (sub_pos.2 h) (sub_pos.2 hIlt),
        mul_le_mul_of_nonneg_left hEx hx.le]
  have expand : 2 / Real.sqrt Real.pi * I * (2 * x ^ 2) -
      (2 / Real.sqrt Real.pi * I -
        x * (2 * E / Real.sqrt Real.pi)) =
      2 / Real.sqrt Real.pi * ((2 * x ^ 2 - 1) * I + x * E) := by
    ring
  nlinarith [mul_pos (div_pos two_pos hsp) key]

lemma a_d_pos (n zt zb m : ℝ) (hn : 0 < n) (hzt : zt ≠ 0) (hzb : zb ≠ 0)
    (hm : 0 < m) : 0 < _a_d n zt zb m := by
  unfold _a_d
  have h1 : (0:ℝ) < ELECTRON_CHARGE := by unfold ELECTRON_CHARGE; norm_num
  have h2 : (0:ℝ) < COULOMB_LOG := by unfold COULOMB_LOG; norm_num
  have h3 : (0:ℝ) < PERMITTIVITY_OF_FREE_SPACE := by
    unfold PERMITTIVITY_OF_FREE_SPACE; norm_num
  have h4 := Real.pi_pos
  positivity

lemma x_ratio_pos (v vth : ℝ) (hv : 0 < v) (hvth : 0 < vth) :
    0 < v / (Real.sqrt 2 * vth) := by
  apply div_pos hv
  exact mul_pos (Real.sqrt_pos.2 two_pos) hvth

/-! ### Claim C6 -/

/-- C6: for positive speeds, masses and density and nonzero charge
states, `slowing_down_time` and `deflection_time` are strictly positive
(and, being real numbers in this model, finite). -/
theorem C6_times_positive (v vth m mb n zt zb : ℝ)
    (hv : 0 < v) (hvth : 0 < vth) (hm : 0 < m) (hmb : 0 < mb)
    (hn : 0 < n) (hzt : zt ≠ 0) (hzb : zb ≠ 0) :
    0 < slowing_down_time v vth m mb n zt zb ∧
      0 < deflection_time v vth m n zt zb := by
  have hx := x_ratio_pos v vth hv hvth
  have hA := a_d_pos n zt zb m hn hzt hzb hm
  have hpsi := psi_pos _ hx
  have hps := phi_sub_psi_pos _ hx
  constructor
  · unfold slowing_down_time
    apply div_pos (by positivity)
    have hfrac : 0 < 1 + m / mb := by positivity
    positivity
  · unfold deflection_time
    apply div_pos (by positivity)
    exact mul_pos hA hps

/-- Witness for C6 at all-ones arguments. -/
theorem C6_times_positive_witness :
    0 < slowing_down_time 1 1 1 1 1 1 1 ∧ 0 < deflection_time 1 1 1 1 1 1 :=
  C6_times_positive 1 1 1 1 1 1 1 (by norm_num) (by norm_num) (by norm_num)
    (by norm_num) (by norm_num) (by norm_num) (by norm_num)

/-! ### Claim C7 -/

/-- C7: for `x > 0` the auxiliary functions satisfy
`Φ(x) ≥ Ψ(x) ≥ 0`; in particular the factor `Φ(x) − Ψ(x)` in the
denominator of `deflection_time` is non-negative. -/
theorem C7_phi_ge_psi_ge_zero (x : ℝ) (hx : 0 < x) :
    _psi x ≤ _phi x ∧ 0 ≤ _psi x ∧ 0 ≤ _phi x - _psi x :=
  ⟨by linarith [phi_sub_psi_pos x hx], (psi_pos x hx).le,
    (phi_sub_psi_pos x hx).le⟩

/-- Witness for C7 at `x = 1`. -/
theorem C7_phi_ge_psi_ge_zero_witness :
    _psi 1 ≤ _phi 1 ∧ 0 ≤ _psi 1 ∧ 0 ≤ _phi 1 - _psi 1 :=
  C7_phi_ge_psi_ge_zero 1 (by norm_num)

/-! ### Claim C9

`reactivity` applied to an array.  The NumPy expressions of
`dt_fusion.py` are modelled on ordered sequences (`List ℝ`): a ufunc of
one array is `List.map`, a ufunc combining two same-length arrays is
`List.zipWith`, following the statement order of the source. -/

noncomputable section

/-- `reactivity` of `dt_fusion.py` evaluated on an array of
temperatures, with every NumPy operation applied elementwise. -/
def reactivityVec (temp_ions : List ℝ) : List ℝ :=
  let denominator := temp_ions.map fun t =>
    -(t * (const_2 + t * (const_4 + t * const_6)))
  let denominator := List.zipWith (fun d t =>
    d / (1 + t * (const_3 + t * (const_5 + t * const_7)))) denominator temp_ions
  let denominator := denominator.map fun d => d + 1
  let th := List.zipWith (fun t d => t / d) temp_ions denominator
  let xg := th.map fun h => (0.25 * gamov_constant ^ 2 / h) ^ ((1 : ℝ) / 3)
  let sigma_v := List.zipWith (fun h p =>
    const_1 * h * Real.sqrt (p.1 / (mrc2 * p.2 ^ 3))) th (xg.zip temp_ions)
  List.zipWith (fun s x => s * Real.exp (-(3 * x))) sigma_v xg

end

/-- C9: the vectorized form of `reactivity` is the elementwise map of
the scalar form: it has the same length as the input sequence and its
`i`-th element is the scalar `reactivity` of the `i`-th input, with no
cross-element interaction. -/
theorem C9_reactivity_vectorized (temp_ions : List ℝ) :
    reactivityVec temp_ions = temp_ions.map reactivity ∧
      (reactivityVec temp_ions).length = temp_ions.length := by
  have h : reactivityVec temp_ions = temp_ions.map reactivity := by
    induction temp_ions with
    | nil => rfl
    | cons t ts ih =>
      simp only [reactivityVec, List.map_cons, List.zipWith_cons_cons,
        List.zip_cons_cons] at ih ⊢
      refine congrArg₂ _ ?_ ih
      unfold reactivity theta Dd Pp Qq xi_greek
      rfl
  exact ⟨h, by rw [h, List.length_map]⟩

/-! ### Analysis of `reactivity` (for C8)

Derivative data for the Bosch-Hale fit.  `Ppd`, `Qqd` are the
derivatives of the two polynomials, `Ss` the numerator of the
derivative of `Pp/Qq`, `thetad` the derivative of `theta`, and
`deriv_expr` the derivative of `reactivity`. -/

noncomputable section

/-- Derivative of `Pp`. -/
def Ppd (t : ℝ) : ℝ := const_2 + 2 * const_4 * t + 3 * const_6 * t ^ 2

/-- Derivative of `Qq`. -/
def Qqd (t : ℝ) : ℝ := const_3 + 2 * const_5 * t + 3 * const_7 * t ^ 2

/-- Numerator of the derivative of `Pp/Qq`. -/
def Ss (t : ℝ) : ℝ := Ppd t * Qq t - Pp t * Qqd t

/-- Derivative of `theta`. -/
def thetad (t : ℝ) : ℝ := (Dd t + t * Ss t / Qq t ^ 2) / Dd t ^ 2

/-- Derivative of `reactivity`. -/
def deriv_expr (t : ℝ) : ℝ :=
  const_1 * Real.sqrt (xi_greek t / (mrc2 * t ^ 3)) *
    Real.exp (-(3 * xi_greek t)) *
    (thetad t * (5 / 6 + xi_greek t) - 3 * theta t / (2 * t))

/-- Coefficient of degree 0 of `Ss`. -/
def sc0 : ℝ := const_2

/-- Coefficient of degree 1 of `Ss`. -/
def sc1 : ℝ := 2 * const_4

/-- Coefficient of degree 2 of `Ss`. -/
def sc2 : ℝ := const_4 * const_3 - const_2 * const_5 + 3 * const_6

/-- Coefficient of degree 3 of `Ss`. -/
def sc3 : ℝ := 2 * const_3 * const_6 - 2 * const_2 * const_7

/-- Coefficient of degree 4 of `Ss`. -/
def sc4 : ℝ := const_5 * const_6 - const_4 * const_7

end

lemma Ss_poly (t : ℝ) :
    Ss t = sc0 + sc1 * t + sc2 * t ^ 2 + sc3 * t ^ 3 + sc4 * t ^ 4 := by
  unfold Ss Ppd Qqd Pp Qq sc0 sc1 sc2 sc3 sc4
  ring

lemma Qq_pos (t : ℝ) (ht : 0 ≤ t) : 0 < Qq t := by
  unfold Qq const_3 const_5 const_7
  nlinarith [mul_nonneg ht ht, mul_nonneg (mul_nonneg ht ht) ht]

lemma Qq_mono (a b : ℝ) (ha : 0 ≤ a) (hab : a ≤ b) : Qq a ≤ Qq b := by
  unfold Qq const_3 const_5 const_7
  nlinarith [mul_nonneg (sub_nonneg.2 hab) ha,
    mul_nonneg (mul_nonneg (sub_nonneg.2 hab) ha) ha,
    mul_nonneg (mul_nonneg (sub_nonneg.2 hab) ha) (ha.trans hab),
    mul_nonneg (mul_nonneg (sub_nonneg.2 hab) (ha.trans hab)) (ha.trans hab),
    mul_nonneg (sub_nonneg.2 hab) (ha.trans hab)]

lemma Pp_mono (a b : ℝ) (ha : 0 ≤ a) (hab : a ≤ b) (hb : b ≤ 20) :
    Pp a ≤ Pp b := by
  have hb0 : 0 ≤ b := ha.trans hab
  have ha20 : a ≤ 20 := hab.trans hb
  have key : Pp b - Pp a =
      (b - a) * (const_2 + const_4 * (a + b) +
        const_6 * (a ^ 2 + a * b + b ^ 2)) := by
    unfold Pp; ring
  have e1 : a ^ 2 ≤ 20 * a := by nlinarith
  have e2 : a * b ≤ 20 * b := by nlinarith
  have e3 : b ^ 2 ≤ 20 * b := by nlinarith
  have factor : 0 ≤ const_2 + const_4 * (a + b) +
      const_6 * (a ^ 2 + a * b + b ^ 2) := by
    unfold const_2 const_4 const_6
    nlinarith
  nlinarith [mul_nonneg (sub_nonneg.2 hab) factor]

lemma Pp_nonneg (t : ℝ) (ht : 0 ≤ t) (ht20 : t ≤ 20) : 0 ≤ Pp t := by
  have h0 : Pp 0 = 0 := by unfold Pp; ring
  have := Pp_mono 0 t le_rfl ht ht20
  linarith

lemma Pp_lt_Qq (t : ℝ) (ht : 0 < t) : Pp t < Qq t := by
  unfold Pp Qq const_2 const_3 const_4 const_5 const_6 const_7
  nlinarith [mul_pos ht ht, mul_pos (mul_pos ht ht) ht]

lemma Dd_eq (t : ℝ) : Dd t = 1 - Pp t / Qq t := by
  unfold Dd; ring

lemma Dd_pos (t : ℝ) (ht : 0 < t) : 0 < Dd t := by
  rw [Dd_eq]
  have hQ := Qq_pos t ht.le
  have h := (div_lt_one hQ).2 (Pp_lt_Qq t ht)
  linarith

lemma theta_pos (t : ℝ) (ht : 0 < t) : 0 < theta t :=
  div_pos ht (Dd_pos t ht)

lemma gamov_sq_pos : (0:ℝ) < 0.25 * gamov_constant ^ 2 := by
  unfold gamov_constant; norm_num

lemma xi_pos (t : ℝ) (ht : 0 < t) : 0 < xi_greek t := by
  unfold xi_greek
  exact Real.rpow_pos_of_pos (div_pos gamov_sq_pos (theta_pos t ht)) _

lemma mrc2_pos : (0:ℝ) < mrc2 := by unfold mrc2; norm_num

lemma const_1_pos : (0:ℝ) < const_1 := by unfold const_1; norm_num

lemma reactivity_pos (t : ℝ) (ht : 0 < t) : 0 < reactivity t := by
  unfold reactivity
  have h1 := theta_pos t ht
  have h2 := xi_pos t ht
  have h3 : 0 < xi_greek t / (mrc2 * t ^ 3) :=
    div_pos h2 (mul_pos mrc2_pos (by positivity))
  have h4 := const_1_pos
  have h5 := Real.sqrt_pos.2 h3
  have h6 := Real.exp_pos (-(3 * xi_greek t))
  positivity

lemma Ss_lower (p q t : ℝ) (h0 : 0 ≤ p) (h1 : p ≤ t) (h2 : t ≤ q) :
    sc0 + sc1 * p + sc2 * q ^ 2 + sc3 * q ^ 3 + sc4 * q ^ 4 ≤ Ss t := by
  rw [Ss_poly]
  have ht0 : 0 ≤ t := h0.trans h1
  have hsc1 : (0:ℝ) ≤ sc1 := by unfold sc1 const_4; norm_num
  have hsc2 : sc2 ≤ 0 := by
    unfold sc2 const_2 const_3 const_4 const_5 const_6; norm_num
  have hsc3 : sc3 ≤ 0 := by
    unfold sc3 const_2 const_3 const_6 const_7; norm_num
  have hsc4 : sc4 ≤ 0 := by
    unfold sc4 const_4 const_5 const_6 const_7; norm_num
  have e2 : t ^ 2 ≤ q ^ 2 := by nlinarith
  have e3 : t ^ 3 ≤ q ^ 3 := by nlinarith
  have e4 : t ^ 4 ≤ q ^ 4 := by nlinarith [sq_nonneg t, sq_nonneg q, e2]
  have b1 : sc1 * p ≤ sc1 * t := mul_le_mul_of_nonneg_left h1 hsc1
  have b2 : sc2 * q ^ 2 ≤ sc2 * t ^ 2 := mul_le_mul_of_nonpos_left e2 hsc2
  have b3 : sc3 * q ^ 3 ≤ sc3 * t ^ 3 := mul_le_mul_of_nonpos_left e3 hsc3
  have b4 : sc4 * q ^ 4 ≤ sc4 * t ^ 4 := mul_le_mul_of_nonpos_left e4 hsc4
  linarith

lemma hasDerivAt_Pp (t : ℝ) : HasDerivAt Pp (Ppd t) t := by
  have e : Pp = fun x : ℝ => const_2 * x + const_4 * x ^ 2 + const_6 * x ^ 3 :=
    funext fun x => by unfold Pp; ring
  rw [e]
  have h := (((hasDerivAt_id t).const_mul const_2).add
      ((hasDerivAt_pow 2 t).const_mul const_4)).add
    ((hasDerivAt_pow 3 t).const_mul const_6)
  convert h using 1
  unfold Ppd
  push_cast
  ring

lemma hasDerivAt_Qq (t : ℝ) : HasDerivAt Qq (Qqd t) t := by
  have e : Qq = fun x : ℝ =>
      1 + (const_3 * x + const_5 * x ^ 2 + const_7 * x ^ 3) :=
    funext fun x => by unfold Qq; ring
  rw [e]
  have h := ((((hasDerivAt_id t).const_mul const_3).add
      ((hasDerivAt_pow 2 t).const_mul const_5)).add
    ((hasDerivAt_pow 3 t).const_mul const_7)).const_add 1
  convert h using 1
  unfold Qqd
  push_cast
  ring

lemma hasDerivAt_Dd (t : ℝ) (hQ : Qq t ≠ 0) :
    HasDerivAt Dd (-Ss t / Qq t ^ 2) t := by
  have h := ((hasDerivAt_Pp t).neg.div (hasDerivAt_Qq t) hQ).add_const 1
  convert h using 1
  unfold Ss
  ring

lemma hasDerivAt_theta (t : ℝ) (hQ : Qq t ≠ 0) (hD : Dd t ≠ 0) :
    HasDerivAt theta (thetad t) t := by
  have h := (hasDerivAt_id t).div (hasDerivAt_Dd t hQ) hD
  convert h using 1
  unfold thetad
  simp only [id_eq]
  ring

lemma hasDerivAt_xi (t : ℝ) (ht : 0 < t) :
    HasDerivAt xi_greek (-(xi_greek t * thetad t) / (3 * theta t)) t := by
  have hQ := (Qq_pos t ht.le).ne'
  have hD := (Dd_pos t ht).ne'
  have hθ := theta_pos t ht
  have hw : 0 < 0.25 * gamov_constant ^ 2 / theta t :=
    div_pos gamov_sq_pos hθ
  have hf : HasDerivAt (fun x => 0.25 * gamov_constant ^ 2 / theta x)
      ((0 * theta t - 0.25 * gamov_constant ^ 2 * thetad t) / theta t ^ 2) t :=
    (hasDerivAt_const t (0.25 * gamov_constant ^ 2)).div
      (hasDerivAt_theta t hQ hD) hθ.ne'
  have h := hf.rpow_const (p := (1:ℝ)/3) (Or.inl hw.ne')
  convert h using 1
  rw [Real.rpow_sub hw, Real.rpow_one]
  unfold xi_greek
  have hg : gamov_constant ≠ 0 := by unfold gamov_constant; norm_num
  field_simp
  ring

lemma hasDerivAt_reactivity (t : ℝ) (ht : 0 < t) :
    HasDerivAt reactivity (deriv_expr t) t := by
  have hQ := (Qq_pos t ht.le).ne'
  have hD := (Dd_pos t ht).ne'
  have hθ := theta_pos t ht
  have hξ := xi_pos t ht
  have hM : (0:ℝ) < mrc2 * t ^ 3 := mul_pos mrc2_pos (by positivity)
  have hW : 0 < xi_greek t / (mrc2 * t ^ 3) := div_pos hξ hM
  have hs : 0 < Real.sqrt (xi_greek t / (mrc2 * t ^ 3)) := Real.sqrt_pos.2 hW
  have hcube : HasDerivAt (fun x : ℝ => mrc2 * x ^ 3) (mrc2 * (3 * t ^ 2)) t := by
    simpa using (hasDerivAt_pow 3 t).const_mul mrc2
  have hWd : HasDerivAt (fun x => xi_greek x / (mrc2 * x ^ 3))
      ((-(xi_greek t * thetad t) / (3 * theta t) * (mrc2 * t ^ 3) -
          xi_greek t * (mrc2 * (3 * t ^ 2))) / (mrc2 * t ^ 3) ^ 2) t :=
    (hasDerivAt_xi t ht).div hcube hM.ne'
  have hsq : HasDerivAt (fun x => Real.sqrt (xi_greek x / (mrc2 * x ^ 3)))
      ((-(xi_greek t * thetad t) / (3 * theta t) * (mrc2 * t ^ 3) -
          xi_greek t * (mrc2 * (3 * t ^ 2))) / (mrc2 * t ^ 3) ^ 2 /
        (2 * Real.sqrt (xi_greek t / (mrc2 * t ^ 3)))) t :=
    hWd.sqrt hW.ne'
  have hexp : HasDerivAt (fun x => Real.exp (-(3 * xi_greek x)))
      (Real.exp (-(3 * xi_greek t)) *
        (-(3 * (-(xi_greek t * thetad t) / (3 * theta t))))) t :=
    (((hasDerivAt_xi t ht).const_mul 3).neg).exp
  have h1 : HasDerivAt (fun x => const_1 * theta x) (const_1 * thetad t) t :=
    (hasDerivAt_theta t hQ hD).const_mul const_1
  have htot := (h1.mul hsq).mul hexp
  convert htot using 1
  unfold deriv_expr
  set s := Real.sqrt (xi_greek t / (mrc2 * t ^ 3)) with hs_def
  set X := Real.exp (-(3 * xi_greek t)) with hX_def
  have hxi_eq : xi_greek t = s ^ 2 * (mrc2 * t ^ 3) := by
    rw [hs_def, Real.sq_sqrt hW.le]
    field_simp
  rw [hxi_eq]
  have hM0 : mrc2 ≠ 0 := mrc2_pos.ne'
  have ht0 : t ≠ 0 := ht.ne'
  have hs0 : s ≠ 0 := hs.ne'
  field_simp
  ring

lemma div_le_div_nonpos_num (a b c d : ℝ) (hab : a ≤ b) (ha : a ≤ 0)
    (hc : 0 < c) (hd : 0 < d) (hcd : c ^ 2 ≤ d ^ 2) :
    a / c ^ 2 ≤ b / d ^ 2 := by
  rw [div_le_div_iff (pow_pos hc 2) (pow_pos hd 2)]
  nlinarith [mul_nonneg (sub_nonneg.2 hab) (sq_nonneg c),
    mul_nonneg (neg_nonneg.2 ha) (sub_nonneg.2 hcd)]

/-- Interval certificate: on `[p, q] ⊆ [1, 20]`, rational bounds
`dlo ≤ Dd ≤ dhi`, `theta ≤ thetahi`, `slo ≤ Ss`, `r ≤ xi_greek` imply
the positivity of `deriv_expr`. -/
lemma deriv_expr_pos_on (p q dlo dhi thetahi slo r : ℝ)
    (hp : 1 ≤ p) (hpq : p < q) (hq20 : q ≤ 20)
    (hdlo_pos : 0 < dlo)
    (hdlo : dlo ≤ 1 - Pp q / Qq p)
    (hdhi : 1 - Pp p / Qq q ≤ dhi)
    (hth : q / dlo ≤ thetahi)
    (hslo : slo ≤ sc0 + sc1 * p + sc2 * q ^ 2 + sc3 * q ^ 3 + sc4 * q ^ 4)
    (hslo0 : slo ≤ 0)
    (hr0 : 0 ≤ r)
    (hr3 : r ^ 3 * thetahi ≤ 0.25 * gamov_constant ^ 2)
    (hmain : 3 * thetahi / (2 * p) <
      (dlo + q * slo / Qq p ^ 2) / dhi ^ 2 * (5 / 6 + r))
    (t : ℝ) (htp : p ≤ t) (htq : t ≤ q) :
    0 < deriv_expr t := by
  have hp0 : (0:ℝ) < p := lt_of_lt_of_le one_pos hp
  have ht0 : (0:ℝ) < t := lt_of_lt_of_le hp0 htp
  have hq0 : (0:ℝ) < q := lt_trans hp0 hpq
  have ht20 : t ≤ 20 := htq.trans hq20
  have hQp : 0 < Qq p := Qq_pos p hp0.le
  have hQt : 0 < Qq t := Qq_pos t ht0.le
  have hQpt : Qq p ≤ Qq t := Qq_mono p t hp0.le htp
  have hQtq : Qq t ≤ Qq q := Qq_mono t q ht0.le htq
  have hPpt : Pp p ≤ Pp t := Pp_mono p t hp0.le htp ht20
  have hPtq : Pp t ≤ Pp q := Pp_mono t q ht0.le htq hq20
  have hPp0 : 0 ≤ Pp p := Pp_nonneg p hp0.le (by linarith)
  have hPt0 : 0 ≤ Pp t := hPp0.trans hPpt
  have hPq0 : 0 ≤ Pp t := hPt0
  have hDlo : dlo ≤ Dd t := by
    rw [Dd_eq]
    have h := div_le_div (hPt0.trans hPtq) hPtq hQp hQpt
    linarith
  have hDhi : Dd t ≤ dhi := by
    rw [Dd_eq]
    have h := div_le_div hPt0 hPpt hQt hQtq
    linarith
  have hDt : 0 < Dd t := lt_of_lt_of_le hdlo_pos hDlo
  have hdhi0 : 0 < dhi := lt_of_lt_of_le hDt hDhi
  have hθpos : 0 < theta t := theta_pos t ht0
  have hθhi : theta t ≤ thetahi := by
    have h : theta t ≤ q / dlo := by
      unfold theta
      exact div_le_div hq0.le htq hdlo_pos hDlo
    linarith
  have hthetahi0 : 0 < thetahi :=
    lt_of_lt_of_le (div_pos hq0 hdlo_pos) hth
  -- lower bound on the Gamow parameter
  have hξr : r ≤ xi_greek t := by
    have h1 : r ^ 3 * theta t ≤ 0.25 * gamov_constant ^ 2 :=
      le_trans (mul_le_mul_of_nonneg_left hθhi (pow_nonneg hr0 3)) hr3
    have h2 : r ^ 3 ≤ 0.25 * gamov_constant ^ 2 / theta t :=
      (le_div_iff₀ hθpos).2 h1
    have h3 : (r ^ 3 : ℝ) ^ ((1:ℝ)/3) ≤
        (0.25 * gamov_constant ^ 2 / theta t) ^ ((1:ℝ)/3) :=
      Real.rpow_le_rpow (pow_nonneg hr0 3) h2 (by norm_num)
    have h4 : (r ^ 3 : ℝ) ^ ((1:ℝ)/3) = r := by
      rw [← Real.rpow_natCast r 3, ← Real.rpow_mul hr0]
      norm_num
    rw [h4] at h3
    exact h3
  have hξpos : 0 < xi_greek t := xi_pos t ht0
  -- lower bound on the derivative of theta
  have hSst : slo ≤ Ss t := le_trans hslo (Ss_lower p q t hp0.le htp htq)
  have htSs : q * slo ≤ t * Ss t := by
    have a1 : q * slo ≤ t * slo := mul_le_mul_of_nonpos_right htq hslo0
    have a2 : t * slo ≤ t * Ss t := mul_le_mul_of_nonneg_left hSst ht0.le
    linarith
  have hqslo : q * slo ≤ 0 := mul_nonpos_iff.2 (Or.inl ⟨hq0.le, hslo0⟩)
  have hQsq : Qq p ^ 2 ≤ Qq t ^ 2 := pow_le_pow_left hQp.le hQpt 2
  have hterm : q * slo / Qq p ^ 2 ≤ t * Ss t / Qq t ^ 2 :=
    div_le_div_nonpos_num _ _ _ _ htSs hqslo hQp hQt hQsq
  have hnum : dlo + q * slo / Qq p ^ 2 ≤ Dd t + t * Ss t / Qq t ^ 2 :=
    add_le_add hDlo hterm
  have h56r : (0:ℝ) < 5 / 6 + r := by linarith
  have hlhs_pos : 0 < 3 * thetahi / (2 * p) :=
    div_pos (by linarith) (by linarith)
  have hnum_pos : 0 < dlo + q * slo / Qq p ^ 2 := by
    by_contra hcon
    push_neg at hcon
    have h4 : (dlo + q * slo / Qq p ^ 2) / dhi ^ 2 ≤ 0 :=
      div_nonpos_of_nonpos_of_nonneg hcon (sq_nonneg dhi)
    nlinarith [mul_nonneg (neg_nonneg.2 h4) h56r.le]
  have hDsq : Dd t ^ 2 ≤ dhi ^ 2 := pow_le_pow_left hDt.le hDhi 2
  have hthetad : (dlo + q * slo / Qq p ^ 2) / dhi ^ 2 ≤ thetad t := by
    unfold thetad
    exact div_le_div (hnum_pos.le.trans hnum) hnum (pow_pos hDt 2) hDsq
  have hthetad_pos : 0 < thetad t :=
    lt_of_lt_of_le (div_pos hnum_pos (pow_pos hdhi0 2)) hthetad
  -- assemble the bracket
  have h5 : (dlo + q * slo / Qq p ^ 2) / dhi ^ 2 * (5 / 6 + r) ≤
      thetad t * (5 / 6 + xi_greek t) :=
    mul_le_mul hthetad (by linarith) h56r.le hthetad_pos.le
  have h6 : 3 * theta t / (2 * t) ≤ 3 * thetahi / (2 * p) :=
    div_le_div (by linarith) (by linarith) (by linarith) (by linarith)
  have hbracket : 0 < thetad t * (5 / 6 + xi_greek t) -
      3 * theta t / (2 * t) := by linarith
  unfold deriv_expr
  have hs : 0 < Real.sqrt (xi_greek t / (mrc2 * t ^ 3)) :=
    Real.sqrt_pos.2 (div_pos hξpos (mul_pos mrc2_pos (by positivity)))
  have hX := Real.exp_pos (-(3 * xi_greek t))
  exact mul_pos (mul_pos (mul_pos const_1_pos hs) hX) hbracket

lemma ival01 (t : ℝ) (h1 : 1 ≤ t) (h2 : t ≤ 2) : 0 < deriv_expr t :=
  deriv_expr_pos_on 1 2 0.956 0.9837 2.0921 0 5.2 (by norm_num) (by norm_num)
    (by norm_num) (by norm_num)
    (by norm_num [Pp, Qq, const_2, const_3, const_4, const_5, const_6,
      const_7])
    (by norm_num [Pp, Qq, const_2, const_3, const_4, const_5, const_6,
      const_7])
    (by norm_num)
    (by norm_num [sc0, sc1, sc2, sc3, sc4, const_2, const_3, const_4,
      const_5, const_6, const_7])
    (by norm_num) (by norm_num) (by norm_num [gamov_constant])
    (by norm_num [Qq, const_3, const_5, const_7]) t h1 h2

lemma ival02 (t : ℝ) (h1 : 2 ≤ t) (h2 : t ≤ 3) : 0 < deriv_expr t :=
  deriv_expr_pos_on 2 3 0.9302 0.9645 3.2252 0 4.5 (by norm_num)
    (by norm_num) (by norm_num) (by norm_num)
    (by norm_num [Pp, Qq, const_2, const_3, const_4, const_5, const_6,
      const_7])
    (by norm_num [Pp, Qq, const_2, const_3, const_4, const_5, const_6,
      const_7])
    (by norm_num)
    (by norm_num [sc0, sc1, sc2, sc3, sc4, const_2, const_3, const_4,
      const_5, const_6, const_7])
    (by norm_num) (by norm_num) (by norm_num [gamov_constant])
    (by norm_num [Qq, const_3, const_5, const_7]) t h1 h2

lemma ival03 (t : ℝ) (h1 : 3 ≤ t) (h2 : t ≤ 5) : 0 < deriv_expr t :=
  deriv_expr_pos_on 3 5 0.8682 0.9511 5.7593 0 3.7 (by norm_num)
    (by norm_num) (by norm_num) (by norm_num)
    (by norm_num [Pp, Qq, const_2, const_3, const_4, const_5, const_6,
      const_7])
    (by norm_num [Pp, Qq, const_2, const_3, const_4, const_5, const_6,
      const_7])
    (by norm_num)
    (by norm_num [sc0, sc1, sc2, sc3, sc4, const_2, const_3, const_4,
      const_5, const_6, const_7])
    (by norm_num) (by norm_num) (by norm_num [gamov_constant])
    (by norm_num [Qq, const_3, const_5, const_7]) t h1 h2

lemma ival04 (t : ℝ) (h1 : 5 ≤ t) (h2 : t ≤ 7) : 0 < deriv_expr t :=
  deriv_expr_pos_on 5 7 0.8279 0.9191 8.456 0 3.26 (by norm_num)
    (by norm_num) (by norm_num) (by norm_num)
    (by norm_num [Pp, Qq, const_2, const_3, const_4, const_5, const_6,
      const_7])
    (by norm_num [Pp, Qq, const_2, const_3, const_4, const_5, const_6,
      const_7])
    (by norm_num)
    (by norm_num [sc0, sc1, sc2, sc3, sc4, const_2, const_3, const_4,
      const_5, const_6, const_7])
    (by norm_num) (by norm_num) (by norm_num [gamov_constant])
    (by norm_num [Qq, const_3, const_5, const_7]) t h1 h2

lemma ival05 (t : ℝ) (h1 : 7 ≤ t) (h2 : t ≤ 9) : 0 < deriv_expr t :=
  deriv_expr_pos_on 7 9 0.8031 0.8939 11.207 0 2.97 (by norm_num)
    (by norm_num) (by norm_num) (by norm_num)
    (by norm_num [Pp, Qq, const_2, const_3, const_4, const_5, const_6,
      const_7])
    (by norm_num [Pp, Qq, const_2, const_3, const_4, const_5, const_6,
      const_7])
    (by norm_num)
    (by norm_num [sc0, sc1, sc2, sc3, sc4, const_2, const_3, const_4,
      const_5, const_6, const_7])
    (by norm_num) (by norm_num) (by norm_num [gamov_constant])
    (by norm_num [Qq, const_3, const_5, const_7]) t h1 h2

lemma ival06 (t : ℝ) (h1 : 9 ≤ t) (h2 : t ≤ 12) : 0 < deriv_expr t :=
  deriv_expr_pos_on 9 12 0.7624 0.8885 15.74 0 2.65 (by norm_num)
    (by norm_num) (by norm_num) (by norm_num)
    (by norm_num [Pp, Qq, const_2, const_3, const_4, const_5, const_6,
      const_7])
    (by norm_num [Pp, Qq, const_2, const_3, const_4, const_5, const_6,
      const_7])
    (by norm_num)
    (by norm_num [sc0, sc1, sc2, sc3, sc4, const_2, const_3, const_4,
      const_5, const_6, const_7])
    (by norm_num) (by norm_num) (by norm_num [gamov_constant])
    (by norm_num [Qq, const_3, const_5, const_7]) t h1 h2

lemma ival07 (t : ℝ) (h1 : 12 ≤ t) (h2 : t ≤ 14) : 0 < deriv_expr t :=
  deriv_expr_pos_on 12 14 0.7876 0.8606 17.776 (-0.0123) 2.55 (by norm_num)
    (by norm_num) (by norm_num) (by norm_num)
    (by norm_num [Pp, Qq, const_2, const_3, const_4, const_5, const_6,
      const_7])
    (by norm_num [Pp, Qq, const_2, const_3, const_4, const_5, const_6,
      const_7])
    (by norm_num)
    (by norm_num [sc0, sc1, sc2, sc3, sc4, const_2, const_3, const_4,
      const_5, const_6, const_7])
    (by norm_num) (by norm_num) (by norm_num [gamov_constant])
    (by norm_num [Qq, const_3, const_5, const_7]) t h1 h2

lemma ival08 (t : ℝ) (h1 : 14 ≤ t) (h2 : t ≤ 16) : 0 < deriv_expr t :=
  deriv_expr_pos_on 14 16 0.7921 0.8562 20.2 (-0.0676) 2.44 (by norm_num)
    (by norm_num) (by norm_num) (by norm_num)
    (by norm_num [Pp, Qq, const_2, const_3, const_4, const_5, const_6,
      const_7])
    (by norm_num [Pp, Qq, const_2, const_3, const_4, const_5, const_6,
      const_7])
    (by norm_num)
    (by norm_num [sc0, sc1, sc2, sc3, sc4, const_2, const_3, const_4,
      const_5, const_6, const_7])
    (by norm_num) (by norm_num) (by norm_num [gamov_constant])
    (by norm_num [Qq, const_3, const_5, const_7]) t h1 h2

lemma ival09 (t : ℝ) (h1 : 16 ≤ t) (h2 : t ≤ 18) : 0 < deriv_expr t :=
  deriv_expr_pos_on 16 18 0.8001 0.8555 22.498 (-0.1492) 2.35 (by norm_num)
    (by norm_num) (by norm_num) (by norm_num)
    (by norm_num [Pp, Qq, const_2, const_3, const_4, const_5, const_6,
      const_7])
    (by norm_num [Pp, Qq, const_2, const_3, const_4, const_5, const_6,
      const_7])
    (by norm_num)
    (by norm_num [sc0, sc1, sc2, sc3, sc4, const_2, const_3, const_4,
      const_5, const_6, const_7])
    (by norm_num) (by norm_num) (by norm_num [gamov_constant])
    (by norm_num [Qq, const_3, const_5, const_7]) t h1 h2

lemma ival10 (t : ℝ) (h1 : 18 ≤ t) (h2 : t ≤ 20) : 0 < deriv_expr t :=
  deriv_expr_pos_on 18 20 0.8103 0.8575 24.683 (-0.2628) 2.28 (by norm_num)
    (by norm_num) (by norm_num) (by norm_num)
    (by norm_num [Pp, Qq, const_2, const_3, const_4, const_5, const_6,
      const_7])
    (by norm_num [Pp, Qq, const_2, const_3, const_4, const_5, const_6,
      const_7])
    (by norm_num)
    (by norm_num [sc0, sc1, sc2, sc3, sc4, const_2, const_3, const_4,
      const_5, const_6, const_7])
    (by norm_num) (by norm_num) (by norm_num [gamov_constant])
    (by norm_num [Qq, const_3, const_5, const_7]) t h1 h2

lemma deriv_expr_pos_interior (t : ℝ) (h1 : 1 < t) (h2 : t < 20) :
    0 < deriv_expr t := by
  rcases le_or_lt t 2 with h | h
  · exact ival01 t h1.le h
  rcases le_or_lt t 3 with h3 | h3
  · exact ival02 t h.le h3
  rcases le_or_lt t 5 with h5 | h5
  · exact ival03 t h3.le h5
  rcases le_or_lt t 7 with h7 | h7
  · exact ival04 t h5.le h7
  rcases le_or_lt t 9 with h9 | h9
  · exact ival05 t h7.le h9
  rcases le_or_lt t 12 with h12 | h12
  · exact ival06 t h9.le h12
  rcases le_or_lt t 14 with h14 | h14
  · exact ival07 t h12.le h14
  rcases le_or_lt t 16 with h16 | h16
  · exact ival08 t h14.le h16
  rcases le_or_lt t 18 with h18 | h18
  · exact ival09 t h16.le h18
  exact ival10 t h18.le h2.le

lemma reactivity_strictMonoOn :
    StrictMonoOn reactivity (Set.Icc (1:ℝ) 20) := by
  apply strictMonoOn_of_deriv_pos (convex_Icc (1:ℝ) 20)
  · intro x hx
    exact (hasDerivAt_reactivity x (by linarith [hx.1])).continuousAt.continuousWithinAt
  · intro x hx
    rw [interior_Icc] at hx
    rw [(hasDerivAt_reactivity x (by linarith [hx.1])).deriv]
    exact deriv_expr_pos_interior x hx.1 hx.2

/-! ### Claim C8 -/

/-- C8: for every positive ion temperature, `reactivity` is strictly
positive (and, being a real number in this model, finite), and
`reactivity` is strictly monotonically increasing on the interval
1 keV to 20 keV. -/
theorem C8_reactivity_positive_monotone :
    (∀ t : ℝ, 0 < t → 0 < reactivity t) ∧
      ∀ t1 t2 : ℝ, 1 ≤ t1 → t1 < t2 → t2 ≤ 20 →
        reactivity t1 < reactivity t2 := by
  constructor
  · exact fun t ht => reactivity_pos t ht
  · intro t1 t2 ha hb hc
    exact reactivity_strictMonoOn ⟨ha, by linarith⟩ ⟨by linarith, hc⟩ hb

/-- Witness for C8 at `T = 2` and the pair `(1, 2)`. -/
theorem C8_reactivity_positive_monotone_witness :
    0 < reactivity 2 ∧ reactivity 1 < reactivity 2 :=
  ⟨C8_reactivity_positive_monotone.1 2 (by norm_num),
    C8_reactivity_positive_monotone.2 1 2 (by norm_num) (by norm_num)
      (by norm_num)⟩

end FPCT
